import Mathlib

/-
Verification of the entity construction and deduplication layer of the
boardgamegeek object model (src/boardgamegeek/objects/games.py).

The Python constructors consume nested mapping/sequence data decoded from
the BGG web service.  We embed that data shallowly:

* `Val` is the universe of Python values that flow through this layer:
  integers, strings, `None`, structured timestamps, lists and dicts
  (dicts are association lists of string keys, preserving insertion order,
  like Python 3 dicts).
* Fallible constructor code becomes functions into `Except PyErr _`,
  where `PyErr` distinguishes the Python exception kinds that the code can
  raise or catch: `KeyError`, `TypeError`, `ValueError`, `AttributeError`,
  and the library's single domain validation error `BGGError`/
  `InvalidRecordError` (carrying its diagnostic message).

Code that lives outside `src/` (the `Thing` identified-thing wrapper, the
`DictObject` generic wrapper and the `fix_url` / `fix_unsigned_negative`
helpers from `utils.py`) is modelled from the specification; each such
definition is marked `Modelled from the spec:` in its doc comment.
-/

/-- A structured timestamp, as produced by `datetime.datetime.strptime`. -/
structure PyDateTime where
  year : Nat
  month : Nat
  day : Nat
  hour : Nat
  minute : Nat
  second : Nat
deriving DecidableEq, Repr

/-- The Python exception kinds raised or caught by this layer.
`bggError` is the library's single domain validation-failure kind
(`BGGError`, called `InvalidRecordError` in the specification). -/
inductive PyErr where
  | keyError (k : String)
  | typeError
  | valueError
  | attributeError
  | bggError (msg : String)
deriving DecidableEq, Repr

/-- Python values flowing through the constructors: ints, strings, `None`,
structured timestamps, lists, and dicts (association lists of string keys
in insertion order). -/
inductive Val where
  | vInt (n : Int)
  | vStr (s : String)
  | vDate (d : PyDateTime)
  | vNull
  | vList (items : List Val)
  | vDict (fields : List (String × Val))

/-- A Python dict with string keys, in insertion order. -/
abbrev Dict := List (String × Val)

mutual

/-- Python `==` on the values of this layer: structural equality
(values of different types compare unequal). -/
def valEq : Val → Val → Bool
  | .vInt a, .vInt b => a == b
  | .vStr a, .vStr b => a == b
  | .vDate a, .vDate b => a == b
  | .vNull, .vNull => true
  | .vList as, .vList bs => valListEq as bs
  | .vDict as, .vDict bs => valDictEq as bs
  | _, _ => false

/-- Python `==` on lists, elementwise. -/
def valListEq : List Val → List Val → Bool
  | [], [] => true
  | a :: as, b :: bs => valEq a b && valListEq as bs
  | _, _ => false

/-- Python `==` on dicts; insertion order is compared too, which is finer
than Python (whose dict equality is order-insensitive) but agrees on all
the membership checks this layer performs, whose operands are ints and
strings. -/
def valDictEq : List (String × Val) → List (String × Val) → Bool
  | [], [] => true
  | (k1, v1) :: as, (k2, v2) :: bs => k1 == k2 && valEq v1 v2 && valDictEq as bs
  | _, _ => false

end

/-- Membership of a value in a stored id set, by Python `==`. -/
def valMem (v : Val) (seen : List Val) : Bool :=
  seen.any (valEq v)

/-- `d[k]` / `d.get(k)` lookup: the value at the first matching key. -/
def dictGet (d : Dict) (k : String) : Option Val :=
  match d with
  | [] => none
  | (k2, v) :: rest => if k2 = k then some v else dictGet rest k

/-- `d[k] = v` assignment: replaces the first matching key in place
(keeping its position, as Python 3 dicts do), appending if absent. -/
def dictSet (d : Dict) (k : String) (v : Val) : Dict :=
  match d with
  | [] => [(k, v)]
  | (k2, v2) :: rest => if k2 = k then (k, v) :: rest else (k2, v2) :: dictSet rest k v

/-- `d[k]` subscription with Python semantics: a missing key raises `KeyError`. -/
def getKey (d : Dict) (k : String) : Except PyErr Val :=
  match dictGet d k with
  | some v => .ok v
  | none => .error (.keyError k)

/-- Whether a value can be a member of a Python `set`
(lists and dicts are unhashable; `in set` raises `TypeError` on them). -/
def hashableVal : Val → Bool
  | .vList _ => false
  | .vDict _ => false
  | _ => true

/-- Iterating a Python value with `for`: lists yield their items, dicts
their keys, strings their characters; other values raise `TypeError`. -/
def getIter : Val → Except PyErr (List Val)
  | .vList vs => .ok vs
  | .vDict ds => .ok (ds.map fun p => Val.vStr p.1)
  | .vStr s => .ok (s.data.map fun c => Val.vStr (String.mk [c]))
  | _ => .error .typeError

/-- `data.get(k, [])` followed by `for`-iteration, the pattern every
constructor loop in `games.py` uses on its input lists. -/
def getField (data : Dict) (k : String) : Except PyErr (List Val) :=
  getIter ((dictGet data k).getD (.vList []))

/-- The numeric value of a run of decimal digits. -/
def digitsToNat (cs : List Char) : Nat :=
  cs.foldl (fun a c => a * 10 + (c.toNat - 48)) 0

/-- Strip leading and trailing whitespace from a character list, as
Python's `int()` does before parsing. -/
def stripData (cs : List Char) : List Char :=
  ((cs.dropWhile Char.isWhitespace).reverse.dropWhile Char.isWhitespace).reverse

/-- Parsing a string with Python's `int()`: optional surrounding
whitespace, an optional sign, then at least one decimal digit. -/
def parseIntStr (s : String) : Option Int :=
  match stripData s.data with
  | [] => none
  | '+' :: rest =>
      if rest ≠ [] ∧ rest.all Char.isDigit then some (digitsToNat rest) else none
  | '-' :: rest =>
      if rest ≠ [] ∧ rest.all Char.isDigit then some (-(digitsToNat rest : Int)) else none
  | cs =>
      if cs.all Char.isDigit then some (digitsToNat cs) else none

/-- Python's `int(x)` coercion: ints pass through, numeric strings parse
(`ValueError` otherwise), every other type raises `TypeError`. -/
def pyInt : Val → Except PyErr Int
  | .vInt n => .ok n
  | .vStr s =>
      match parseIntStr s with
      | some n => .ok n
      | none => .error .valueError
  | _ => .error .typeError

/-- Two decimal digit characters as a number. -/
def dig2 (a b : Char) : Nat :=
  (a.toNat - 48) * 10 + (b.toNat - 48)

/-- Whether a year is a leap year (Gregorian rule). -/
def leapYear (y : Nat) : Bool :=
  (y % 4 == 0 && y % 100 != 0) || y % 400 == 0

/-- Number of days in a month, for validating parsed dates. -/
def daysInMonth (y m : Nat) : Nat :=
  if m = 2 then (if leapYear y then 29 else 28)
  else if m = 4 ∨ m = 6 ∨ m = 9 ∨ m = 11 then 30
  else 31

/-- `datetime.datetime.strptime(s, s2)` for the zero-padded pattern the
video constructor uses: four digit year, dash, two digit month, dash, two
digit day, a literal T, then two digit hour, minute and second separated
by colons; the field values must form a valid `datetime` (year at least
1, month 1-12, day within the month, hour below 24, minute and second
below 60).  Returns `none` where Python raises `ValueError`. -/
def parseYmdHms (s : String) : Option PyDateTime :=
  match s.data with
  | [y1, y2, y3, y4, p1, m1, m2, p2, d1, d2, p3, h1, h2, p4, n1, n2, p5, c1, c2] =>
    if y1.isDigit && y2.isDigit && y3.isDigit && y4.isDigit &&
       m1.isDigit && m2.isDigit && d1.isDigit && d2.isDigit &&
       h1.isDigit && h2.isDigit && n1.isDigit && n2.isDigit &&
       c1.isDigit && c2.isDigit &&
       p1 == '-' && p2 == '-' && p3 == 'T' && p4 == ':' && p5 == ':' then
      let y := dig2 y1 y2 * 100 + dig2 y3 y4
      let mo := dig2 m1 m2
      let dd := dig2 d1 d2
      let hh := dig2 h1 h2
      let mi := dig2 n1 n2
      let ss := dig2 c1 c2
      if 1 ≤ y ∧ 1 ≤ mo ∧ mo ≤ 12 ∧ 1 ≤ dd ∧ dd ≤ daysInMonth y mo ∧
         hh ≤ 23 ∧ mi ≤ 59 ∧ ss ≤ 59 then
        some ⟨y, mo, dd, hh, mi, ss⟩
      else none
    else none
  | _ => none

/-- Python's `s[:-6]` slice: all but the last six characters
(the empty string when `s` is shorter than six characters). -/
def dropLast6 (s : String) : String :=
  String.mk (s.data.take (s.data.length - 6))

/-- Modelled from the spec: the URL normalization collaborator
(`fix_url` in `utils.py`, not under `src/`): a protocol-relative URL is
completed to absolute form, other strings pass through. -/
def fixUrlStr (s : String) : String :=
  if s.startsWith "//" then "http:" ++ s else s

/-- URL normalization applied to a field value: only strings are rewritten. -/
def fixUrlVal : Val → Val
  | .vStr s => .vStr (fixUrlStr s)
  | v => v

/-- Modelled from the spec: the negative-year normalization collaborator
(`fix_unsigned_negative` in `utils.py`, not under `src/`): a very large
positive integer produced by unsigned 32-bit wraparound of a small
negative year is mapped back to the true negative value; everything else
passes through. -/
def fixUnsignedNegative : Val → Val
  | .vInt n => .vInt (if n > 100000 then n - 4294967296 else n)
  | v => v

/-- An identified thing: the coerced integer id together with the wrapped
backing mapping (`_data`). -/
structure Thing where
  id : Int
  data : Dict

/-- Modelled from the spec: the Identified-Thing wrapper construction
(`Thing.__init__` in `things.py`, not under `src/`, spec section 4.2):
the input mapping must contain an `id` field coercible to integer, and
construction fails with the domain validation error if it is absent or
non-coercible; `name` is optional and never validated. -/
def thing (d : Dict) : Except PyErr Thing :=
  match dictGet d "id" with
  | none => .error (.bggError "invalid id")
  | some v =>
    match pyInt v with
    | .ok n => .ok ⟨n, d⟩
    | .error _ => .error (.bggError "invalid id")

/-- Modelled from the spec: attribute lookup through the generic record
wrapper (`DictObject.__getattr__` in `utils.py`, not under `src/`, spec
section 4.1): a key present in the backing mapping yields its value, a
missing key yields attribute-not-found rather than a default. -/
def dictObjectGetattr (d : Dict) (k : String) : Except PyErr Val :=
  match dictGet d k with
  | some v => .ok v
  | none => .error .attributeError

/-- The statistics aggregate (`BoardGameStats`): the cached primary-rank
slot, the accumulated rank wrapper list, and the backing mapping.
`bggRankSlot = none` means the `_bgg_rank` attribute was never assigned
by the constructor; `some v` means it was assigned the value `v`
(`some none` standing for an explicit `None`). -/
structure BoardGameStats where
  bggRankSlot : Option (Option Int)
  ranks : List Thing
  data : Dict

/-- One iteration of the `ranks` loop in `BoardGameStats.__init__`:
if the entry's `name` equals `"boardgame"`, cache `int(entry["value"])`
in the slot, degrading to an explicit `None` on `KeyError` or
`TypeError` (a `ValueError` from `int()` propagates); then append a
`BoardGameRank` (a `Thing`) built from the entry.  Iterating a non-dict
entry raises at the `.get` call. -/
def statsStep (st : Option (Option Int) × List Thing) (e : Val) :
    Except PyErr (Option (Option Int) × List Thing) :=
  match e with
  | .vDict rank =>
    let slot :=
      if valEq ((dictGet rank "name").getD .vNull) (.vStr "boardgame") then
        match dictGet rank "value" with
        | none => Except.ok (some none)
        | some v =>
          match pyInt v with
          | .ok n => Except.ok (some (some n))
          | .error .typeError => Except.ok (some none)
          | .error e2 => Except.error e2
      else Except.ok st.1
    match slot with
    | .error e2 => .error e2
    | .ok slot2 =>
      match thing rank with
      | .ok t => .ok (slot2, st.2 ++ [t])
      | .error e2 => .error e2
  | _ => .error .attributeError

/-- The `ranks` loop of `BoardGameStats.__init__`, in input order. -/
def statsLoop (st : Option (Option Int) × List Thing) :
    List Val → Except PyErr (Option (Option Int) × List Thing)
  | [] => .ok st
  | e :: es =>
    match statsStep st e with
    | .ok st2 => statsLoop st2 es
    | .error e2 => .error e2

/-- `BoardGameStats.__init__`: iterate `data.get("ranks", [])` with
`statsStep`, then wrap the backing mapping. -/
def boardGameStats (data : Dict) : Except PyErr BoardGameStats :=
  match getField data "ranks" with
  | .error e => .error e
  | .ok vs =>
    match statsLoop (none, []) vs with
    | .error e => .error e
    | .ok st => .ok ⟨st.1, st.2, data⟩

/-- Reading the `bgg_rank` property of a statistics aggregate: the
property returns the `_bgg_rank` attribute; when the constructor never
assigned it, Python attribute lookup falls through to the generic
wrapper's dynamic `__getattr__` on the backing mapping. -/
def statsBggRankRead (s : BoardGameStats) : Except PyErr Val :=
  match s.bggRankSlot with
  | some (some n) => .ok (.vInt n)
  | some none => .ok .vNull
  | none => dictObjectGetattr s.data "bgg_rank"

/-- The processed `post_date` value stored by the video constructor for a
string input: strip the trailing six characters (the timezone suffix) and
parse the rest with the fixed pattern; any failure is swallowed and the
field becomes `None`. -/
def postDateOfString (s : String) : Val :=
  match parseYmdHms (dropLast6 s) with
  | some dt => .vDate dt
  | none => .vNull

/-- `BoardGameVideo.__init__`: copy the input mapping; if `post_date` is
present and not already a structured timestamp, replace it by the parsed
timestamp (or `None` when the bare `except` swallows the failure, also
for non-string values whose slicing raises); then coerce `uploader_id`
with `int()` (`KeyError` when absent, `ValueError`/`TypeError` when
non-coercible), and build the underlying identified thing. -/
def boardGameVideo (data : Dict) : Except PyErr Thing :=
  let kw :=
    match dictGet data "post_date" with
    | none => data
    | some v =>
      match v with
      | .vDate _ => data
      | .vStr s => dictSet data "post_date" (postDateOfString s)
      | _ => dictSet data "post_date" .vNull
  match dictGet kw "uploader_id" with
  | none => .error (.keyError "uploader_id")
  | some uv =>
    match pyInt uv with
    | .error e => .error e
    | .ok n => thing (dictSet kw "uploader_id" (.vInt n))

/-- Apply URL normalization to one key of a mapping when present, as
`BoardGameVersion.__init__` does for `thumbnail` and `image`. -/
def fixKeyUrl (d : Dict) (k : String) : Dict :=
  match dictGet d k with
  | some v => dictSet d k (fixUrlVal v)
  | none => d

/-- `BoardGameVersion.__init__`: copy the input, normalize the
`thumbnail` and `image` URLs when present, and build the identified
thing. -/
def boardGameVersion (data : Dict) : Except PyErr Thing :=
  thing (fixKeyUrl (fixKeyUrl data "thumbnail") "image")

/-- State of one deduplicating constructor loop: the wrapper list built
so far and the set of ids already seen. -/
structure DedupSt where
  items : List Thing
  seen : List Val

/-- The body of one iteration of a deduplicating loop
(`for x in data.get(key, []): if x["id"] not in seen: ...`), before the
enclosing `except KeyError` handler: the element must be subscriptable
(`TypeError` otherwise), `x["id"]` raises `KeyError` when missing, the
id must be hashable for the set test, an already-seen id skips the
element silently, and otherwise the wrapper is constructed and both the
list and the seen set grow. -/
def dedupBody (mk : Dict → Except PyErr Thing) (st : DedupSt) (e : Val) :
    Except PyErr DedupSt :=
  match e with
  | .vDict d =>
    match dictGet d "id" with
    | none => .error (.keyError "id")
    | some idv =>
      if hashableVal idv then
        if valMem idv st.seen then .ok st
        else
          match mk d with
          | .ok t => .ok ⟨st.items ++ [t], st.seen ++ [idv]⟩
          | .error e2 => .error e2
      else .error .typeError
  | _ => .error .typeError

/-- One iteration of a deduplicating loop with its enclosing
`except KeyError: raise BGGError(tag)` handler: a `KeyError` anywhere in
the body is converted to the tagged validation error, every other
exception propagates unchanged. -/
def dedupStep (tag : String) (mk : Dict → Except PyErr Thing) (st : DedupSt) (e : Val) :
    Except PyErr DedupSt :=
  match dedupBody mk st e with
  | .error (.keyError _) => .error (.bggError tag)
  | r => r

/-- A whole deduplicating constructor loop, in input order. -/
def dedupLoop (tag : String) (mk : Dict → Except PyErr Thing) (st : DedupSt) :
    List Val → Except PyErr DedupSt
  | [] => .ok st
  | e :: es =>
    match dedupStep tag mk st e with
    | .ok st2 => dedupLoop tag mk st2 es
    | .error e2 => .error e2

/-- The base game object (`BaseGame`): normalized thumbnail and image,
the mandatory statistics aggregate, the deduplicated version list with
its id set, the normalized publication year, and the underlying
identified thing (which wraps the full backing mapping). -/
structure BaseGameS where
  thumbnail : Option Val
  image : Option Val
  stats : BoardGameStats
  versions : List Thing
  versionsSet : List Val
  yearPublished : Option Val
  core : Thing

/-- `BaseGame.__init__`: normalize `thumbnail` and `image` when present;
require the `stats` sub-mapping (`BGGError "invalid data"` when absent,
and its value must be a mapping for the statistics constructor to read);
build the statistics aggregate; normalize `yearpublished` (absent
resolves to `None` via the `except KeyError`); run the deduplicating
`versions` loop tagged `"invalid version data"`; then build the
identified thing from the full mapping. -/
def baseGame (data : Dict) : Except PyErr BaseGameS :=
  let thumb := (dictGet data "thumbnail").map fixUrlVal
  let img := (dictGet data "image").map fixUrlVal
  match dictGet data "stats" with
  | none => .error (.bggError "invalid data")
  | some sv =>
    match sv with
    | .vDict sd =>
      match boardGameStats sd with
      | .error e => .error e
      | .ok stats =>
        let year := (dictGet data "yearpublished").map fixUnsignedNegative
        match getField data "versions" with
        | .error e => .error e
        | .ok vers =>
          match dedupLoop "invalid version data" boardGameVersion ⟨[], []⟩ vers with
          | .error e => .error e
          | .ok vst =>
            match thing data with
            | .error e => .error e
            | .ok core => .ok ⟨thumb, img, stats, vst.items, vst.seen, year, core⟩
    | _ => .error .attributeError

/-- Build one player-count poll record from a `results` entry of
`suggested_numplayers`, as `BoardGame.__init__` does: the entry value
must be a mapping and must contain the `best`, `recommended` and
`not_recommended` keys (a missing key raises `KeyError`, uncaught). -/
def buildNumplayerEntry (p : String × Val) : Except PyErr Dict :=
  match p.2 with
  | .vDict r =>
    match getKey r "best" with
    | .error e => .error e
    | .ok b =>
      match getKey r "recommended" with
      | .error e => .error e
      | .ok rc =>
        match getKey r "not_recommended" with
        | .error e => .error e
        | .ok nr =>
          .ok [("_count", .vStr p.1), ("_best", b), ("_recommended", rc),
               ("_not_recommended", nr)]
  | _ => .error .typeError

/-- Build one player-age poll record from a `results` entry of
`suggested_playerage`: the vote count is stored as-is. -/
def buildPlayerageEntry (p : String × Val) : Except PyErr Dict :=
  .ok [("_age", .vStr p.1), ("_votes", p.2)]

/-- Build one language-dependence poll record from a `results` entry of
`language_dependence`: the entry value must be a mapping containing
`description` and `num_votes`. -/
def buildLangdepEntry (p : String × Val) : Except PyErr Dict :=
  match p.2 with
  | .vDict d =>
    match getKey d "description" with
    | .error e => .error e
    | .ok ds =>
      match getKey d "num_votes" with
      | .error e => .error e
      | .ok nv => .ok [("_level", .vStr p.1), ("_description", ds), ("_votes", nv)]
  | _ => .error .typeError

/-- Build the poll records of one poll in `results` key order. -/
def buildEntries (f : String × Val → Except PyErr Dict) :
    List (String × Val) → Except PyErr (List Dict)
  | [] => .ok []
  | p :: ps =>
    match f p with
    | .error e => .error e
    | .ok d =>
      match buildEntries f ps with
      | .error e => .error e
      | .ok ds => .ok (d :: ds)

/-- One poll block of `BoardGame.__init__`: when the top-level key is
present, its value must be a mapping whose `results` entry (required,
`KeyError` otherwise) is itself a mapping, iterated in key order; when
the top-level key is absent the poll list is empty. -/
def buildPoll (data : Dict) (top : String) (f : String × Val → Except PyErr Dict) :
    Except PyErr (List Dict) :=
  match dictGet data top with
  | none => .ok []
  | some v =>
    match v with
    | .vDict m =>
      match dictGet m "results" with
      | none => .error (.keyError "results")
      | some rv =>
        match rv with
        | .vDict res => buildEntries f res
        | _ => .error .attributeError
    | _ => .error .typeError

/-- The full game object (`BoardGame`): the deduplicated expansion,
expanded-game and video lists with their id sets, the comment list, the
three poll-result lists, and the underlying base game. -/
structure BoardGameS where
  expansions : List Thing
  expansionsSet : List Val
  expands : List Thing
  expandsSet : List Val
  videos : List Thing
  videosIds : List Val
  comments : List Val
  pollNumplayers : List Dict
  pollPlayerage : List Dict
  pollLangdeps : List Dict
  base : BaseGameS

/-- `BoardGame.__init__`: run the three deduplicating loops over
`expansions` (tag `"invalid expansion data"`, wrapping each element as a
`Thing`), `expands` (tag `"invalid expanded game data"`), and `videos`
(tag `"invalid video data"`, wrapping with the video constructor); wrap
each element of `comments` (comment wrapping never fails); build the
three poll lists; then delegate to the base game constructor. -/
def boardGame (data : Dict) : Except PyErr BoardGameS :=
  match getField data "expansions" with
  | .error e => .error e
  | .ok exps =>
  match dedupLoop "invalid expansion data" thing ⟨[], []⟩ exps with
  | .error e => .error e
  | .ok est =>
  match getField data "expands" with
  | .error e => .error e
  | .ok xps =>
  match dedupLoop "invalid expanded game data" thing ⟨[], []⟩ xps with
  | .error e => .error e
  | .ok xst =>
  match getField data "videos" with
  | .error e => .error e
  | .ok vids =>
  match dedupLoop "invalid video data" boardGameVideo ⟨[], []⟩ vids with
  | .error e => .error e
  | .ok vst =>
  match getField data "comments" with
  | .error e => .error e
  | .ok cmts =>
  match buildPoll data "suggested_numplayers" buildNumplayerEntry with
  | .error e => .error e
  | .ok pn =>
  match buildPoll data "suggested_playerage" buildPlayerageEntry with
  | .error e => .error e
  | .ok pa =>
  match buildPoll data "language_dependence" buildLangdepEntry with
  | .error e => .error e
  | .ok pl =>
  match baseGame data with
  | .error e => .error e
  | .ok base =>
    .ok ⟨est.items, est.seen, xst.items, xst.seen, vst.items, vst.seen,
         cmts, pn, pa, pl, base⟩

/-- The body of `add_expansion` / `add_expanded_game` before the
enclosing `except KeyError` handler, acting on the wrapped list, the id
set and the game's backing mapping: `data["id"]` raises `KeyError` on a
non-mapping argument (`TypeError`) or a missing id; a known id is a
silent no-op; for a new id the raw record is appended to
`self._data[key]` (which raises `KeyError` when the backing mapping has
no such key, and is only appendable when it holds a list), the id is
added to the set and the wrapped reference is appended. -/
def addRefBody (key : String) (gdata : Dict) (items : List Thing) (seen : List Val)
    (data : Val) : Except PyErr (List Thing × List Val × Dict) :=
  match data with
  | .vDict d =>
    match dictGet d "id" with
    | none => .error (.keyError "id")
    | some idv =>
      if hashableVal idv then
        if valMem idv seen then .ok (items, seen, gdata)
        else
          match dictGet gdata key with
          | none => .error (.keyError key)
          | some (.vList l) =>
            (match thing d with
             | .ok t => .ok (items ++ [t], seen ++ [idv],
                             dictSet gdata key (.vList (l ++ [data])))
             | .error e => .error e)
          | some _ => .error .attributeError
      else .error .typeError
  | _ => .error .typeError

/-- `BoardGame.add_expansion`: the body above on the `expansions` slots,
with `KeyError` converted to `BGGError "invalid expansion data"`. -/
def addExpansion (g : BoardGameS) (data : Val) : Except PyErr BoardGameS :=
  match addRefBody "expansions" g.base.core.data g.expansions g.expansionsSet data with
  | .error (.keyError _) => .error (.bggError "invalid expansion data")
  | .error e => .error e
  | .ok (l, s, nd) =>
    .ok ⟨l, s, g.expands, g.expandsSet, g.videos, g.videosIds, g.comments,
         g.pollNumplayers, g.pollPlayerage, g.pollLangdeps,
         ⟨g.base.thumbnail, g.base.image, g.base.stats, g.base.versions,
          g.base.versionsSet, g.base.yearPublished, ⟨g.base.core.id, nd⟩⟩⟩

/-- `BoardGame.add_expanded_game`: the symmetric operation on the
`expands` slots, with `KeyError` converted to
`BGGError "invalid expanded game data"`. -/
def addExpandedGame (g : BoardGameS) (data : Val) : Except PyErr BoardGameS :=
  match addRefBody "expands" g.base.core.data g.expands g.expandsSet data with
  | .error (.keyError _) => .error (.bggError "invalid expanded game data")
  | .error e => .error e
  | .ok (l, s, nd) =>
    .ok ⟨g.expansions, g.expansionsSet, l, s, g.videos, g.videosIds, g.comments,
         g.pollNumplayers, g.pollPlayerage, g.pollLangdeps,
         ⟨g.base.thumbnail, g.base.image, g.base.stats, g.base.versions,
          g.base.versionsSet, g.base.yearPublished, ⟨g.base.core.id, nd⟩⟩⟩

/-- Reference description of the deduplication policy: keep the
first-seen element for each distinct id (Python `==` on the raw id
values), in first-occurrence order, silently dropping later repeats. -/
def dedupFirst (seen : List Val) : List Val → List Dict
  | [] => []
  | e :: es =>
    match e with
    | .vDict d =>
      match dictGet d "id" with
      | some idv =>
        if valMem idv seen then dedupFirst seen es
        else d :: dedupFirst (seen ++ [idv]) es
      | none => dedupFirst seen es
    | _ => dedupFirst seen es

/-- Reference description of the primary-rank cache update performed by
one `ranks` entry: an entry whose `name` equals `"boardgame"` overwrites
the slot with its parsed `value` (an explicit `None` when the value is
missing or non-parseable), every other entry leaves the slot alone, so a
left fold of this update realizes the last-write-wins policy. -/
def rankSlotUpd (acc : Option (Option Int)) (d : Dict) : Option (Option Int) :=
  if valEq ((dictGet d "name").getD .vNull) (.vStr "boardgame") then
    some (match dictGet d "value" with
          | none => none
          | some v =>
            match pyInt v with
            | .ok n => some n
            | .error _ => none)
  else acc

/-- Rank entry with a `type` field (no `name`), as in the specification's
example; an `id` is included so that the rank wrapper itself constructs. -/
def rankTypeFamily : Dict := [("id", .vInt 1), ("type", .vStr "family"), ("value", .vInt 10)]

/-- Second `type`-keyed rank entry of the specification's example. -/
def rankTypeBg5 : Dict := [("id", .vInt 2), ("type", .vStr "boardgame"), ("value", .vInt 5)]

/-- Third `type`-keyed rank entry of the specification's example. -/
def rankTypeBg7 : Dict := [("id", .vInt 3), ("type", .vStr "boardgame"), ("value", .vInt 7)]

/-- Statistics input whose ranks carry `type` fields only. -/
def statsDataTypeKeyed : Dict :=
  [("ranks", .vList [.vDict rankTypeFamily, .vDict rankTypeBg5, .vDict rankTypeBg7])]

/-- Rank entry named `family`. -/
def rankNameFamily : Dict := [("id", .vInt 1), ("name", .vStr "family"), ("value", .vInt 10)]

/-- Rank entry named `boardgame` with value 5. -/
def rankNameBg5 : Dict := [("id", .vInt 2), ("name", .vStr "boardgame"), ("value", .vInt 5)]

/-- Rank entry named `boardgame` with value 7. -/
def rankNameBg7 : Dict := [("id", .vInt 3), ("name", .vStr "boardgame"), ("value", .vInt 7)]

/-- Statistics input whose ranks carry `name` fields. -/
def statsDataNameKeyed : Dict :=
  [("ranks", .vList [.vDict rankNameFamily, .vDict rankNameBg5, .vDict rankNameBg7])]

/-- Game input with duplicate ids in all four satellite lists. -/
def gameDataDedup : Dict :=
  [("id", .vInt 9), ("stats", .vDict []),
   ("expansions", .vList [.vDict [("id", .vInt 1), ("name", .vStr "a")],
                          .vDict [("id", .vInt 2), ("name", .vStr "b")],
                          .vDict [("id", .vInt 1), ("name", .vStr "c")]]),
   ("expands", .vList [.vDict [("id", .vInt 4)], .vDict [("id", .vInt 4)]]),
   ("videos", .vList [.vDict [("id", .vInt 5), ("uploader_id", .vInt 7)],
                      .vDict [("id", .vInt 5), ("uploader_id", .vInt 8)]]),
   ("versions", .vList [.vDict [("id", .vInt 6)], .vDict [("id", .vInt 6)]])]

/-- Minimal game input: an id and an empty statistics sub-mapping, with
no `expansions` or `expands` key in the backing mapping. -/
def gameDataMinimal : Dict := [("id", .vInt 1), ("stats", .vDict [])]

/-- Game input whose backing mapping holds (empty) `expansions` and
`expands` lists, so the post-construction mutators can append. -/
def gameDataWithLists : Dict :=
  [("id", .vInt 1), ("stats", .vDict []),
   ("expansions", .vList []), ("expands", .vList [])]

/-- Whether a computation failed with the domain validation error kind
(`BGGError` / `InvalidRecordError`), as opposed to any other exception. -/
def errIsBgg {α : Type} : Except PyErr α → Bool
  | .error (.bggError _) => true
  | _ => false

/-- An arbitrary game value, used to state that some construction
produces no instance at all. -/
def dummyGame : BoardGameS :=
  ⟨[], [], [], [], [], [], [], [], [], [],
   ⟨none, none, ⟨none, [], []⟩, [], [], none, ⟨0, []⟩⟩⟩

/-- Setting one key does not change the lookup of a different key. -/
theorem dictGet_dictSet_ne (d : Dict) (k k2 : String) (v : Val) (h : k2 ≠ k) :
    dictGet (dictSet d k v) k2 = dictGet d k2 := by
  induction d with
  | nil => simp [dictSet, dictGet, Ne.symm h]
  | cons p rest ih =>
    obtain ⟨k3, v3⟩ := p
    by_cases hk : k3 = k
    · subst hk
      simp [dictSet, dictGet, h, Ne.symm h]
    · simp [dictSet, dictGet, hk, ih]

/-- Setting a key makes its lookup return the new value. -/
theorem dictGet_dictSet_self (d : Dict) (k : String) (v : Val) :
    dictGet (dictSet d k v) k = some v := by
  induction d with
  | nil => simp [dictSet, dictGet]
  | cons p rest ih =>
    obtain ⟨k3, v3⟩ := p
    by_cases hk : k3 = k
    · subst hk
      simp [dictSet, dictGet]
    · simp [dictSet, dictGet, hk, ih]

/-- A successfully constructed identified thing wraps exactly the input
mapping. -/
theorem thing_data (d : Dict) (t : Thing) (h : thing d = .ok t) : t.data = d := by
  unfold thing at h
  cases hid : dictGet d "id" with
  | none => simp [hid] at h
  | some v =>
    cases hpi : pyInt v with
    | ok n =>
      simp only [hid, hpi] at h
      cases h
      rfl
    | error e => simp [hid, hpi] at h

/-- URL normalization of a non-id key leaves the id lookup unchanged. -/
theorem fixKeyUrl_id (d : Dict) (k : String) (h : ("id" : String) ≠ k) :
    dictGet (fixKeyUrl d k) "id" = dictGet d "id" := by
  unfold fixKeyUrl
  cases hk : dictGet d k with
  | none => rfl
  | some v => simp [dictGet_dictSet_ne d k "id" _ h]

/-- A successfully constructed version wraps the input mapping with the
same id value. -/
theorem version_id (d : Dict) (t : Thing) (h : boardGameVersion d = .ok t) :
    dictGet t.data "id" = dictGet d "id" := by
  unfold boardGameVersion at h
  have h2 := thing_data _ _ h
  rw [h2, fixKeyUrl_id _ _ (by decide), fixKeyUrl_id _ _ (by decide)]

/-- A successfully constructed video wraps a mapping with the same id
value as the input. -/
theorem video_id (d : Dict) (t : Thing) (h : boardGameVideo d = .ok t) :
    dictGet t.data "id" = dictGet d "id" := by
  unfold boardGameVideo at h
  have base : ∀ kw, dictGet kw "id" = dictGet d "id" →
      (match dictGet kw "uploader_id" with
       | none => Except.error (PyErr.keyError "uploader_id")
       | some uv =>
         match pyInt uv with
         | .error e => Except.error e
         | .ok n => thing (dictSet kw "uploader_id" (.vInt n))) = .ok t →
      dictGet t.data "id" = dictGet d "id" := by
    intro kw hkw hh
    cases hu : dictGet kw "uploader_id" with
    | none => simp [hu] at hh
    | some uv =>
      cases hpi : pyInt uv with
      | error e => simp [hu, hpi] at hh
      | ok n =>
        simp only [hu, hpi] at hh
        have h3 := thing_data _ _ hh
        rw [h3, dictGet_dictSet_ne _ _ _ _ (by decide), hkw]
  cases hp : dictGet d "post_date" with
  | none =>
    rw [hp] at h
    exact base d rfl h
  | some v =>
    rw [hp] at h
    cases v with
    | vDate dt => exact base d rfl h
    | vStr s => exact base _ (dictGet_dictSet_ne _ _ _ _ (by decide)) h
    | vInt n => exact base _ (dictGet_dictSet_ne _ _ _ _ (by decide)) h
    | vNull => exact base _ (dictGet_dictSet_ne _ _ _ _ (by decide)) h
    | vList l => exact base _ (dictGet_dictSet_ne _ _ _ _ (by decide)) h
    | vDict dd => exact base _ (dictGet_dictSet_ne _ _ _ _ (by decide)) h

/-- A successful deduplicating loop extends the wrapper list by exactly
the first-seen element for each distinct id, in first-occurrence order,
as described by `dedupFirst`; the projection `proj`/`projD` relates each
constructed wrapper to its source mapping. -/
theorem dedupLoop_items {α : Type} (tag : String) (mk : Dict → Except PyErr Thing)
    (proj : Thing → α) (projD : Dict → α)
    (hmk : ∀ d t, mk d = .ok t → proj t = projD d) :
    ∀ (l : List Val) (st st2 : DedupSt), dedupLoop tag mk st l = .ok st2 →
      st2.items.map proj = st.items.map proj ++ (dedupFirst st.seen l).map projD := by
  intro l
  induction l with
  | nil =>
    intro st st2 h
    simp only [dedupLoop] at h
    cases h
    simp [dedupFirst]
  | cons e es ih =>
    intro st st2 h
    simp only [dedupLoop] at h
    cases e with
    | vDict d =>
      cases hid : dictGet d "id" with
      | none => simp [dedupStep, dedupBody, hid] at h
      | some idv =>
        by_cases hh : hashableVal idv = true
        · by_cases hm : valMem idv st.seen = true
          · simp only [dedupStep, dedupBody, hid, hh, hm, if_true] at h
            rw [ih st st2 h]
            simp [dedupFirst, hid, hm]
          · cases hmk2 : mk d with
            | error e2 =>
              cases e2 <;> simp [dedupStep, dedupBody, hid, hh, hm, hmk2] at h
            | ok t =>
              simp only [dedupStep, dedupBody, hid, hh, hm, hmk2, if_true,
                Bool.false_eq_true, if_false] at h
              rw [ih _ st2 h]
              simp [dedupFirst, hid, hm, hmk _ _ hmk2]
        · simp [dedupStep, dedupBody, hid, hh] at h
    | vInt n => simp [dedupStep, dedupBody] at h
    | vStr s => simp [dedupStep, dedupBody] at h
    | vDate dt => simp [dedupStep, dedupBody] at h
    | vNull => simp [dedupStep, dedupBody] at h
    | vList ls => simp [dedupStep, dedupBody] at h

/-- A deduplicating loop over an appended list runs the two halves in
sequence. -/
theorem dedupLoop_append (tag : String) (mk : Dict → Except PyErr Thing)
    (l1 l2 : List Val) :
    ∀ st, dedupLoop tag mk st (l1 ++ l2) =
      match dedupLoop tag mk st l1 with
      | .ok st2 => dedupLoop tag mk st2 l2
      | .error e => .error e := by
  induction l1 with
  | nil => intro st; simp [dedupLoop]
  | cons e es ih =>
    intro st
    simp only [List.cons_append, dedupLoop]
    cases hstep : dedupStep tag mk st e with
    | ok st2 => exact ih st2
    | error e2 => rfl

/-- A successful `ranks` loop computes the primary-rank slot as the left
fold of `rankSlotUpd` (last-write-wins) and appends one rank wrapper per
input entry, in input order, undeduplicated. -/
theorem statsLoop_items (rs : List Dict) :
    ∀ (slot : Option (Option Int)) (acc : List Thing) out,
      statsLoop (slot, acc) (rs.map Val.vDict) = .ok out →
      out.1 = rs.foldl rankSlotUpd slot ∧
      out.2.map Thing.data = acc.map Thing.data ++ rs := by
  induction rs with
  | nil =>
    intro slot acc out h
    simp only [List.map_nil, statsLoop] at h
    cases h
    simp
  | cons d ds ih =>
    intro slot acc out h
    simp only [List.map_cons, statsLoop] at h
    by_cases hb : valEq ((dictGet d "name").getD .vNull) (.vStr "boardgame") = true
    · cases hv : dictGet d "value" with
      | none =>
        cases ht : thing d with
        | error e2 => simp [statsStep, hb, hv, ht] at h
        | ok t =>
          simp only [statsStep, hb, hv, ht, if_true] at h
          obtain ⟨h1, h2⟩ := ih _ _ _ h
          refine ⟨?_, ?_⟩
          · rw [h1]
            simp [rankSlotUpd, hb, hv]
          · rw [h2]
            simp [thing_data _ _ ht]
      | some v =>
        cases hpi : pyInt v with
        | ok n =>
          cases ht : thing d with
          | error e2 => simp [statsStep, hb, hv, hpi, ht] at h
          | ok t =>
            simp only [statsStep, hb, hv, hpi, ht, if_true] at h
            obtain ⟨h1, h2⟩ := ih _ _ _ h
            refine ⟨?_, ?_⟩
            · rw [h1]
              simp [rankSlotUpd, hb, hv, hpi]
            · rw [h2]
              simp [thing_data _ _ ht]
        | error e2 =>
          cases e2 with
          | typeError =>
            cases ht : thing d with
            | error e3 => simp [statsStep, hb, hv, hpi, ht] at h
            | ok t =>
              simp only [statsStep, hb, hv, hpi, ht, if_true] at h
              obtain ⟨h1, h2⟩ := ih _ _ _ h
              refine ⟨?_, ?_⟩
              · rw [h1]
                simp [rankSlotUpd, hb, hv, hpi]
              · rw [h2]
                simp [thing_data _ _ ht]
          | keyError k => simp [statsStep, hb, hv, hpi] at h
          | valueError => simp [statsStep, hb, hv, hpi] at h
          | attributeError => simp [statsStep, hb, hv, hpi] at h
          | bggError m => simp [statsStep, hb, hv, hpi] at h
    · cases ht : thing d with
      | error e2 => simp [statsStep, hb, ht] at h
      | ok t =>
        simp only [statsStep, hb, ht, Bool.false_eq_true, if_false] at h
        obtain ⟨h1, h2⟩ := ih _ _ _ h
        refine ⟨?_, ?_⟩
        · rw [h1]
          simp [rankSlotUpd, hb]
        · rw [h2]
          simp [thing_data _ _ ht]

/-- When no entry is named `boardgame`, the slot fold is the identity. -/
theorem foldl_rankSlotUpd_id (rs : List Dict)
    (hnb : ∀ d ∈ rs, valEq ((dictGet d "name").getD .vNull) (.vStr "boardgame") = false) :
    ∀ slot, rs.foldl rankSlotUpd slot = slot := by
  induction rs with
  | nil => intro slot; rfl
  | cons d ds ih =>
    intro slot
    have hd := hnb d (by simp)
    have hds : ∀ d2 ∈ ds, valEq ((dictGet d2 "name").getD .vNull) (.vStr "boardgame") = false :=
      fun d2 hmem => hnb d2 (by simp [hmem])
    simp only [List.foldl_cons]
    rw [ih hds]
    simp [rankSlotUpd, hd]

/-- Claim C1, counterexample: for the specification's example ranks,
whose entries carry a `type` field (ids added so that each rank wrapper
constructs), the aggregate's cached rank is not 7: the constructor tests
the `name` field, not `type`, so the slot is never assigned at all. -/
theorem c1_type_field_counterexample :
    (boardGameStats statsDataTypeKeyed).map BoardGameStats.bggRankSlot ≠
      .ok (some (some 7)) ∧
    (boardGameStats statsDataTypeKeyed).map BoardGameStats.bggRankSlot = .ok none := by
  have h1 : (boardGameStats statsDataTypeKeyed).map BoardGameStats.bggRankSlot
      = .ok none := rfl
  refine ⟨?_, h1⟩
  intro hcontra
  rw [h1] at hcontra
  injection hcontra with h2
  exact Option.noConfusion h2

/-- Claim C1, amended: the constructor selects rank entries by their
`name` field (not `type`); each entry named `boardgame` overwrites the
cached primary rank with its parsed value (last write wins, as the left
fold of `rankSlotUpd`), and the exposed ranks list keeps every input
entry, undeduplicated, in input order. -/
theorem c1_bgg_rank_last_write_wins (data : Dict) (rs : List Dict) (s : BoardGameStats)
    (hr : getField data "ranks" = .ok (rs.map Val.vDict))
    (hok : boardGameStats data = .ok s) :
    s.bggRankSlot = rs.foldl rankSlotUpd none ∧ s.ranks.map Thing.data = rs := by
  unfold boardGameStats at hok
  rw [hr] at hok
  cases hl : statsLoop (none, []) (rs.map Val.vDict) with
  | error e => simp [hl] at hok
  | ok st =>
    simp only [hl] at hok
    obtain ⟨h1, h2⟩ := statsLoop_items rs none [] st hl
    injection hok with h3
    subst h3
    exact ⟨h1, by simpa using h2⟩

/-- Claim C1, witness: for ranks named `family`, `boardgame` (value 5)
and `boardgame` (value 7), in that order, the cached rank is 7 and the
ranks list keeps all three entries in input order. -/
theorem c1_bgg_rank_witness :
    (boardGameStats statsDataNameKeyed).map BoardGameStats.bggRankSlot
      = .ok (some (some 7)) ∧
    (boardGameStats statsDataNameKeyed).map (fun s => s.ranks.map Thing.data)
      = .ok [rankNameFamily, rankNameBg5, rankNameBg7] := by
  have hok : boardGameStats statsDataNameKeyed =
      .ok ⟨some (some 7),
           [⟨1, rankNameFamily⟩, ⟨2, rankNameBg5⟩, ⟨3, rankNameBg7⟩],
           statsDataNameKeyed⟩ := rfl
  have hc := c1_bgg_rank_last_write_wins statsDataNameKeyed
    [rankNameFamily, rankNameBg5, rankNameBg7] _ rfl hok
  rw [hok]
  exact ⟨congrArg Except.ok (hc.1.trans rfl), congrArg Except.ok hc.2⟩

/-- Claim C2 (code bug): a boardgame-named rank entry whose `value` is
the non-numeric string `Not Ranked` makes the statistics constructor
raise `ValueError`: the `except` clause catches only `KeyError` and
`TypeError`, so the `ValueError` from `int()` escapes instead of
degrading `bgg_rank` to null as the specification requires. -/
theorem c2_not_ranked_raises :
    boardGameStats [("ranks", Val.vList
      [Val.vDict [("name", Val.vStr "boardgame"), ("value", Val.vStr "Not Ranked")]])]
    = .error .valueError := rfl

/-- Claim C10: when no rank entry is named `boardgame`, the constructor
never assigns the `_bgg_rank` attribute (not even an explicit null), so
reading `bgg_rank` falls through to the generic wrapper's dynamic
attribute lookup on the backing mapping. -/
theorem c10_bgg_rank_unassigned (data : Dict) (rs : List Dict) (s : BoardGameStats)
    (hr : getField data "ranks" = .ok (rs.map Val.vDict))
    (hnb : ∀ d ∈ rs, valEq ((dictGet d "name").getD .vNull) (.vStr "boardgame") = false)
    (hok : boardGameStats data = .ok s) :
    s.bggRankSlot = none ∧ statsBggRankRead s = dictObjectGetattr s.data "bgg_rank" := by
  unfold boardGameStats at hok
  rw [hr] at hok
  cases hl : statsLoop (none, []) (rs.map Val.vDict) with
  | error e => simp [hl] at hok
  | ok st =>
    simp only [hl] at hok
    obtain ⟨h1, h2⟩ := statsLoop_items rs none [] st hl
    injection hok with h3
    subst h3
    have hslot : st.1 = none := by rw [h1, foldl_rankSlotUpd_id rs hnb]
    refine ⟨hslot, ?_⟩
    simp [statsBggRankRead, hslot]

/-- Claim C10, witness: a single rank named `family` leaves the slot
unassigned and the `bgg_rank` read falls through to the wrapper lookup
(an attribute error here, the backing mapping having no `bgg_rank` key). -/
theorem c10_bgg_rank_unassigned_witness :
    (boardGameStats [("ranks", Val.vList [Val.vDict rankNameFamily])]).map
      BoardGameStats.bggRankSlot = .ok none ∧
    (boardGameStats [("ranks", Val.vList [Val.vDict rankNameFamily])]).map
      statsBggRankRead = .ok (.error .attributeError) := by
  have hok : boardGameStats [("ranks", Val.vList [Val.vDict rankNameFamily])] =
      .ok ⟨none, [⟨1, rankNameFamily⟩],
           [("ranks", Val.vList [Val.vDict rankNameFamily])]⟩ := rfl
  have hc := c10_bgg_rank_unassigned [("ranks", Val.vList [Val.vDict rankNameFamily])]
    [rankNameFamily] ⟨none, [⟨1, rankNameFamily⟩],
      [("ranks", Val.vList [Val.vDict rankNameFamily])]⟩ rfl
    (by intro d hd; simp at hd; subst hd; rfl) hok
  rw [hok]
  exact ⟨congrArg Except.ok hc.1, congrArg Except.ok (hc.2.trans rfl)⟩

/-- A base game lacking the `stats` key fails with the validation error
tagged `invalid data`. -/
theorem baseGame_missing_stats (data : Dict) (h : dictGet data "stats" = none) :
    baseGame data = .error (.bggError "invalid data") := by
  simp [baseGame, h]

/-- Inversion of a successful full-game construction into its phases. -/
theorem boardGame_ok_inv (data : Dict) (g : BoardGameS) (h : boardGame data = .ok g) :
    ∃ exps est xps xst vids vst cmts pn pa pl base,
      getField data "expansions" = .ok exps ∧
      dedupLoop "invalid expansion data" thing ⟨[], []⟩ exps = .ok est ∧
      getField data "expands" = .ok xps ∧
      dedupLoop "invalid expanded game data" thing ⟨[], []⟩ xps = .ok xst ∧
      getField data "videos" = .ok vids ∧
      dedupLoop "invalid video data" boardGameVideo ⟨[], []⟩ vids = .ok vst ∧
      getField data "comments" = .ok cmts ∧
      buildPoll data "suggested_numplayers" buildNumplayerEntry = .ok pn ∧
      buildPoll data "suggested_playerage" buildPlayerageEntry = .ok pa ∧
      buildPoll data "language_dependence" buildLangdepEntry = .ok pl ∧
      baseGame data = .ok base ∧
      g = ⟨est.items, est.seen, xst.items, xst.seen, vst.items, vst.seen,
           cmts, pn, pa, pl, base⟩ := by
  unfold boardGame at h
  cases hE : getField data "expansions" with
  | error e => simp [hE] at h
  | ok exps =>
  simp only [hE] at h
  cases hEL : dedupLoop "invalid expansion data" thing ⟨[], []⟩ exps with
  | error e => simp [hEL] at h
  | ok est =>
  simp only [hEL] at h
  cases hX : getField data "expands" with
  | error e => simp [hX] at h
  | ok xps =>
  simp only [hX] at h
  cases hXL : dedupLoop "invalid expanded game data" thing ⟨[], []⟩ xps with
  | error e => simp [hXL] at h
  | ok xst =>
  simp only [hXL] at h
  cases hV : getField data "videos" with
  | error e => simp [hV] at h
  | ok vids =>
  simp only [hV] at h
  cases hVL : dedupLoop "invalid video data" boardGameVideo ⟨[], []⟩ vids with
  | error e => simp [hVL] at h
  | ok vst =>
  simp only [hVL] at h
  cases hC : getField data "comments" with
  | error e => simp [hC] at h
  | ok cmts =>
  simp only [hC] at h
  cases hP1 : buildPoll data "suggested_numplayers" buildNumplayerEntry with
  | error e => simp [hP1] at h
  | ok pn =>
  simp only [hP1] at h
  cases hP2 : buildPoll data "suggested_playerage" buildPlayerageEntry with
  | error e => simp [hP2] at h
  | ok pa =>
  simp only [hP2] at h
  cases hP3 : buildPoll data "language_dependence" buildLangdepEntry with
  | error e => simp [hP3] at h
  | ok pl =>
  simp only [hP3] at h
  cases hB : baseGame data with
  | error e => simp [hB] at h
  | ok base =>
  simp only [hB] at h
  injection h with h2
  exact ⟨exps, est, xps, xst, vids, vst, cmts, pn, pa, pl, base,
    rfl, hEL, rfl, hXL, rfl, hVL, rfl, rfl, rfl, rfl, rfl, h2.symm⟩

/-- Inversion of a successful base-game construction into its phases. -/
theorem baseGame_ok_inv (data : Dict) (b : BaseGameS) (h : baseGame data = .ok b) :
    ∃ sd stats vers vst core,
      dictGet data "stats" = some (.vDict sd) ∧
      boardGameStats sd = .ok stats ∧
      getField data "versions" = .ok vers ∧
      dedupLoop "invalid version data" boardGameVersion ⟨[], []⟩ vers = .ok vst ∧
      thing data = .ok core ∧
      b = ⟨(dictGet data "thumbnail").map fixUrlVal, (dictGet data "image").map fixUrlVal,
           stats, vst.items, vst.seen,
           (dictGet data "yearpublished").map fixUnsignedNegative, core⟩ := by
  unfold baseGame at h
  cases hs : dictGet data "stats" with
  | none => simp [hs] at h
  | some sv =>
  simp only [hs] at h
  cases sv with
  | vDict sd =>
    cases hst : boardGameStats sd with
    | error e => simp [hst] at h
    | ok stats =>
    simp only [hst] at h
    cases hVer : getField data "versions" with
    | error e => simp [hVer] at h
    | ok vers =>
    simp only [hVer] at h
    cases hVL : dedupLoop "invalid version data" boardGameVersion ⟨[], []⟩ vers with
    | error e => simp [hVL] at h
    | ok vst =>
    simp only [hVL] at h
    cases hT : thing data with
    | error e => simp [hT] at h
    | ok core =>
    simp only [hT] at h
    injection h with h2
    exact ⟨sd, stats, vers, vst, core, rfl, hst, rfl, hVL, rfl, h2.symm⟩
  | vInt n => simp at h
  | vStr s => simp at h
  | vDate dt => simp at h
  | vNull => simp at h
  | vList l => simp at h

/-- Claim C3, counterexample: a mapping lacking `stats` whose `videos`
list holds an entry with a non-numeric `uploader_id` makes full-game
construction raise `ValueError` (the satellite loops run before the
`stats` check, and `ValueError` is not the domain validation kind), so a
missing `stats` key does not always surface as `InvalidRecordError`. -/
theorem c3_value_error_counterexample :
    dictGet [("videos", Val.vList
        [Val.vDict [("id", Val.vInt 1), ("uploader_id", Val.vStr "x")]])] "stats" = none ∧
    boardGame [("videos", Val.vList
        [Val.vDict [("id", Val.vInt 1), ("uploader_id", Val.vStr "x")]])]
      = .error .valueError ∧
    errIsBgg (boardGame [("videos", Val.vList
        [Val.vDict [("id", Val.vInt 1), ("uploader_id", Val.vStr "x")]])]) = false :=
  ⟨rfl, rfl, rfl⟩

/-- Claim C3, amended: a base game constructed from a mapping lacking
`stats` always fails with the validation error tagged `invalid data`;
a full game from such a mapping never yields a usable instance, and it
fails with that same validation error whenever the satellite phases that
run before the `stats` check do not themselves abort construction first. -/
theorem c3_missing_stats_fails :
    (∀ data : Dict, dictGet data "stats" = none →
       baseGame data = .error (.bggError "invalid data")) ∧
    (∀ (data : Dict) (g : BoardGameS), dictGet data "stats" = none →
       boardGame data ≠ .ok g) ∧
    (∀ (data : Dict) (exps xps vids cmts : List Val) (est xst vst : DedupSt)
       (pn pa pl : List Dict),
       dictGet data "stats" = none →
       getField data "expansions" = .ok exps →
       dedupLoop "invalid expansion data" thing ⟨[], []⟩ exps = .ok est →
       getField data "expands" = .ok xps →
       dedupLoop "invalid expanded game data" thing ⟨[], []⟩ xps = .ok xst →
       getField data "videos" = .ok vids →
       dedupLoop "invalid video data" boardGameVideo ⟨[], []⟩ vids = .ok vst →
       getField data "comments" = .ok cmts →
       buildPoll data "suggested_numplayers" buildNumplayerEntry = .ok pn →
       buildPoll data "suggested_playerage" buildPlayerageEntry = .ok pa →
       buildPoll data "language_dependence" buildLangdepEntry = .ok pl →
       boardGame data = .error (.bggError "invalid data")) := by
  refine ⟨fun data h => baseGame_missing_stats data h, ?_, ?_⟩
  · intro data g hst hcontra
    obtain ⟨exps, est, xps, xst, vids, vst, cmts, pn, pa, pl, base,
      hE, hEL, hX, hXL, hV, hVL, hC, hP1, hP2, hP3, hB, hg⟩ :=
      boardGame_ok_inv data g hcontra
    obtain ⟨sd, stats, vers, vstB, core, hsd, _, _, _, _, _⟩ :=
      baseGame_ok_inv data base hB
    rw [hst] at hsd
    exact Option.noConfusion hsd
  · intro data exps xps vids cmts est xst vst pn pa pl
      hst hE hEL hX hXL hV hVL hC hP1 hP2 hP3
    have hB := baseGame_missing_stats data hst
    simp only [boardGame, hE, hEL, hX, hXL, hV, hVL, hC, hP1, hP2, hP3, hB]

/-- Claim C3, witness: the empty mapping (no `stats`, and trivially
well-formed satellite lists) fails both constructions with the tagged
validation error, and yields no game instance. -/
theorem c3_missing_stats_witness :
    baseGame [] = .error (.bggError "invalid data") ∧
    boardGame [("id", Val.vInt 1)] ≠ .ok dummyGame ∧
    boardGame [] = .error (.bggError "invalid data") := by
  refine ⟨c3_missing_stats_fails.1 [] rfl,
          c3_missing_stats_fails.2.1 [("id", Val.vInt 1)] dummyGame rfl,
          c3_missing_stats_fails.2.2 [] [] [] [] [] ⟨[], []⟩ ⟨[], []⟩ ⟨[], []⟩ [] [] []
            rfl rfl rfl rfl rfl rfl rfl rfl rfl rfl rfl⟩

/-- A successful deduplicating loop appends exactly one wrapper per
first-seen id, and each appended wrapper is the one the constructor
builds from that first-seen mapping, so a later element with a repeated
id is dropped whole: it never merges into or replaces the first. -/
theorem dedupLoop_built (tag : String) (mk : Dict → Except PyErr Thing) :
    ∀ (l : List Val) (st st2 : DedupSt), dedupLoop tag mk st l = .ok st2 →
      ∃ ts, st2.items = st.items ++ ts ∧
        List.Forall₂ (fun d t => mk d = .ok t) (dedupFirst st.seen l) ts := by
  intro l
  induction l with
  | nil =>
    intro st st2 h
    simp only [dedupLoop] at h
    cases h
    exact ⟨[], by simp, by simp [dedupFirst]⟩
  | cons e es ih =>
    intro st st2 h
    simp only [dedupLoop] at h
    cases e with
    | vDict d =>
      cases hid : dictGet d "id" with
      | none => simp [dedupStep, dedupBody, hid] at h
      | some idv =>
        by_cases hh : hashableVal idv = true
        · by_cases hm : valMem idv st.seen = true
          · simp only [dedupStep, dedupBody, hid, hh, hm, if_true] at h
            obtain ⟨ts, hts, hf⟩ := ih st st2 h
            refine ⟨ts, hts, ?_⟩
            have h2 : dedupFirst st.seen (Val.vDict d :: es) = dedupFirst st.seen es := by
              simp [dedupFirst, hid, hm]
            rw [h2]
            exact hf
          · cases hmk2 : mk d with
            | error e2 =>
              cases e2 <;> simp [dedupStep, dedupBody, hid, hh, hm, hmk2] at h
            | ok t =>
              simp only [dedupStep, dedupBody, hid, hh, hm, hmk2, if_true,
                Bool.false_eq_true, if_false] at h
              obtain ⟨ts, hts, hf⟩ := ih _ st2 h
              refine ⟨t :: ts, ?_, ?_⟩
              · rw [hts]
                simp
              · have h2 : dedupFirst st.seen (Val.vDict d :: es)
                    = d :: dedupFirst (st.seen ++ [idv]) es := by
                  simp [dedupFirst, hid, hm]
                rw [h2]
                exact List.Forall₂.cons hmk2 hf
        · simp [dedupStep, dedupBody, hid, hh] at h
    | vInt n => simp [dedupStep, dedupBody] at h
    | vStr s => simp [dedupStep, dedupBody] at h
    | vDate dt => simp [dedupStep, dedupBody] at h
    | vNull => simp [dedupStep, dedupBody] at h
    | vList ls => simp [dedupStep, dedupBody] at h

/-- Claim C4: in a successfully constructed game, each of the
expansions, expands, videos and versions lists keeps exactly the
first-seen element for each distinct id, in first-occurrence order,
silently dropping every later element with a repeated id (`dedupFirst`):
expansion and expanded-game wrappers keep the first-seen mapping itself,
and every output list is, elementwise, exactly the wrapper the
constructor builds from the corresponding first-seen mapping, so a later
duplicate is never merged into or substituted for the first. -/
theorem c4_dedup_first_seen (data : Dict) (g : BoardGameS)
    (exps xps vids vers : List Val)
    (hE : getField data "expansions" = .ok exps)
    (hX : getField data "expands" = .ok xps)
    (hV : getField data "videos" = .ok vids)
    (hVer : getField data "versions" = .ok vers)
    (hok : boardGame data = .ok g) :
    g.expansions.map Thing.data = dedupFirst [] exps ∧
    g.expands.map Thing.data = dedupFirst [] xps ∧
    List.Forall₂ (fun d t => thing d = .ok t) (dedupFirst [] exps) g.expansions ∧
    List.Forall₂ (fun d t => thing d = .ok t) (dedupFirst [] xps) g.expands ∧
    List.Forall₂ (fun d t => boardGameVideo d = .ok t) (dedupFirst [] vids) g.videos ∧
    List.Forall₂ (fun d t => boardGameVersion d = .ok t)
      (dedupFirst [] vers) g.base.versions := by
  obtain ⟨exps2, est, xps2, xst, vids2, vst, cmts, pn, pa, pl, base,
    hE2, hEL, hX2, hXL, hV2, hVL, hC, hP1, hP2, hP3, hB, hg⟩ :=
    boardGame_ok_inv data g hok
  rw [hE] at hE2
  injection hE2 with hE3
  subst hE3
  rw [hX] at hX2
  injection hX2 with hX3
  subst hX3
  rw [hV] at hV2
  injection hV2 with hV3
  subst hV3
  obtain ⟨sd, stats, vers2, vstB, core, hsd, hstats, hVer2, hVerL, hcore, hbase⟩ :=
    baseGame_ok_inv data base hB
  rw [hVer] at hVer2
  injection hVer2 with hVer3
  subst hVer3
  subst hg
  subst hbase
  refine ⟨?_, ?_, ?_, ?_, ?_, ?_⟩
  · have h := dedupLoop_items "invalid expansion data" thing Thing.data (fun d => d)
      (fun d t ht => thing_data d t ht) exps ⟨[], []⟩ est hEL
    simpa using h
  · have h := dedupLoop_items "invalid expanded game data" thing Thing.data (fun d => d)
      (fun d t ht => thing_data d t ht) xps ⟨[], []⟩ xst hXL
    simpa using h
  · obtain ⟨ts, hts, hf⟩ :=
      dedupLoop_built "invalid expansion data" thing exps ⟨[], []⟩ est hEL
    rw [hts]
    simpa using hf
  · obtain ⟨ts, hts, hf⟩ :=
      dedupLoop_built "invalid expanded game data" thing xps ⟨[], []⟩ xst hXL
    rw [hts]
    simpa using hf
  · obtain ⟨ts, hts, hf⟩ :=
      dedupLoop_built "invalid video data" boardGameVideo vids ⟨[], []⟩ vst hVL
    rw [hts]
    simpa using hf
  · obtain ⟨ts, hts, hf⟩ :=
      dedupLoop_built "invalid version data" boardGameVersion vers ⟨[], []⟩ vstB hVerL
    rw [hts]
    simpa using hf

/-- Claim C4, witness: for the game input whose four satellite lists all
contain duplicate ids, each resulting list keeps only the first-seen
element of each id, in order: expansions with ids 1, 2, 1 yield exactly
the two entries with ids 1 and 2, in that order, and the kept video is
the whole wrapper built from the first duplicate (uploader 7), not the
later one (uploader 8). -/
theorem c4_dedup_witness :
    (boardGame gameDataDedup).map (fun g => g.expansions.map Thing.data)
      = .ok [[("id", Val.vInt 1), ("name", Val.vStr "a")],
             [("id", Val.vInt 2), ("name", Val.vStr "b")]] ∧
    (boardGame gameDataDedup).map (fun g => g.expands.map Thing.data)
      = .ok [[("id", Val.vInt 4)]] ∧
    (boardGame gameDataDedup).map (fun g => g.videos)
      = .ok [⟨5, [("id", Val.vInt 5), ("uploader_id", Val.vInt 7)]⟩] ∧
    (boardGame gameDataDedup).map (fun g => g.base.versions)
      = .ok [⟨6, [("id", Val.vInt 6)]⟩] := by
  cases hok : boardGame gameDataDedup with
  | error e =>
    have hsome : (boardGame gameDataDedup).toOption.isSome = true := rfl
    rw [hok] at hsome
    simp [Except.toOption] at hsome
  | ok g =>
    have hc := c4_dedup_first_seen gameDataDedup g
      [.vDict [("id", .vInt 1), ("name", .vStr "a")],
       .vDict [("id", .vInt 2), ("name", .vStr "b")],
       .vDict [("id", .vInt 1), ("name", .vStr "c")]]
      [.vDict [("id", .vInt 4)], .vDict [("id", .vInt 4)]]
      [.vDict [("id", .vInt 5), ("uploader_id", .vInt 7)],
       .vDict [("id", .vInt 5), ("uploader_id", .vInt 8)]]
      [.vDict [("id", .vInt 6)], .vDict [("id", .vInt 6)]]
      rfl rfl rfl rfl hok
    obtain ⟨h1, h2, h3, h4, h5, h6⟩ := hc
    simp only [Except.map]
    refine ⟨congrArg Except.ok (h1.trans rfl),
            congrArg Except.ok (h2.trans rfl), ?_, ?_⟩
    · have h5b : List.Forall₂ (fun d t => boardGameVideo d = .ok t)
          [[("id", Val.vInt 5), ("uploader_id", Val.vInt 7)]] g.videos := h5
      obtain ⟨t, u, hrt, hfu, hu⟩ := List.forall₂_cons_left_iff.mp h5b
      have hu2 : u = [] := List.forall₂_nil_left_iff.mp hfu
      have hv : boardGameVideo [("id", Val.vInt 5), ("uploader_id", Val.vInt 7)]
          = .ok ⟨5, [("id", Val.vInt 5), ("uploader_id", Val.vInt 7)]⟩ := rfl
      rw [hv] at hrt
      injection hrt with ht
      refine congrArg Except.ok ?_
      rw [hu, hu2, ← ht]
    · have h6b : List.Forall₂ (fun d t => boardGameVersion d = .ok t)
          [[("id", Val.vInt 6)]] g.base.versions := h6
      obtain ⟨t, u, hrt, hfu, hu⟩ := List.forall₂_cons_left_iff.mp h6b
      have hu2 : u = [] := List.forall₂_nil_left_iff.mp hfu
      have hv : boardGameVersion [("id", Val.vInt 6)]
          = .ok ⟨6, [("id", Val.vInt 6)]⟩ := rfl
      rw [hv] at hrt
      injection hrt with ht
      refine congrArg Except.ok ?_
      rw [hu, hu2, ← ht]

/-- Claim C5, counterexample: on a game built from a mapping with no
`expansions` key, adding an expansion with a fresh id does not append:
the raw-mapping append (`self._data["expansions"].append`) raises
`KeyError`, which the handler converts to the tagged validation error. -/
theorem c5_new_id_counterexample :
    (boardGame gameDataMinimal).map
        (fun g => addExpansion g (.vDict [("id", Val.vInt 3)]))
      = .ok (.error (.bggError "invalid expansion data")) ∧
    dictGet [("id", Val.vInt 3)] "id" = some (Val.vInt 3) ∧
    (boardGame gameDataMinimal).map (fun g => valMem (Val.vInt 3) g.expansionsSet)
      = .ok false :=
  ⟨rfl, rfl, rfl⟩

/-- Claim C5, amended: adding an expansion whose id is already present
is a no-op returning the game unchanged; adding one with a new id
appends exactly one wrapper (which wraps the given mapping) to the
expansions list and records the id, provided the game's backing mapping
holds an `expansions` list for the raw record to be appended to. -/
theorem c5_add_expansion (g : BoardGameS) (d : Dict) (idv : Val) :
    ((dictGet d "id" = some idv ∧ hashableVal idv = true ∧
        valMem idv g.expansionsSet = true) →
      addExpansion g (.vDict d) = .ok g) ∧
    (∀ (l : List Val) (t : Thing),
      dictGet d "id" = some idv → hashableVal idv = true →
      valMem idv g.expansionsSet = false →
      dictGet g.base.core.data "expansions" = some (.vList l) →
      thing d = .ok t →
      ∃ g2, addExpansion g (.vDict d) = .ok g2 ∧
        g2.expansions = g.expansions ++ [t] ∧
        g2.expansions.length = g.expansions.length + 1 ∧
        t ∈ g2.expansions ∧ t.data = d ∧
        g2.expansionsSet = g.expansionsSet ++ [idv]) := by
  constructor
  · rintro ⟨hid, hh, hm⟩
    simp only [addExpansion, addRefBody, hid, hh, hm, if_true]
  · intro l t hid hh hm hback ht
    refine ⟨⟨g.expansions ++ [t], g.expansionsSet ++ [idv], g.expands, g.expandsSet,
      g.videos, g.videosIds, g.comments, g.pollNumplayers, g.pollPlayerage,
      g.pollLangdeps,
      ⟨g.base.thumbnail, g.base.image, g.base.stats, g.base.versions,
       g.base.versionsSet, g.base.yearPublished,
       ⟨g.base.core.id, dictSet g.base.core.data "expansions"
          (.vList (l ++ [.vDict d]))⟩⟩⟩, ?_, rfl, by simp, by simp,
      thing_data d t ht, rfl⟩
    simp only [addExpansion, addRefBody, hid, hh, hm, hback, ht,
      Bool.false_eq_true, if_false, if_true]

/-- Claim C5, witness: on the game whose backing mapping holds an empty
`expansions` list, adding an expansion with the new id 3 appends exactly
one entry (kept in the backing mapping too), and adding it a second time
is a no-op returning the same game. -/
theorem c5_add_expansion_witness :
    (boardGame gameDataWithLists).map
        (fun g => addExpansion g (.vDict [("id", Val.vInt 3)]))
      = .ok (.ok ⟨[⟨3, [("id", Val.vInt 3)]⟩], [Val.vInt 3],
          [], [], [], [], [], [], [], [],
          ⟨none, none, ⟨none, [], []⟩, [], [], none,
           ⟨1, [("id", Val.vInt 1), ("stats", Val.vDict []),
                ("expansions", Val.vList [Val.vDict [("id", Val.vInt 3)]]),
                ("expands", Val.vList [])]⟩⟩⟩) ∧
    addExpansion
      ⟨[⟨3, [("id", Val.vInt 3)]⟩], [Val.vInt 3], [], [], [], [], [], [], [], [],
       ⟨none, none, ⟨none, [], []⟩, [], [], none,
        ⟨1, [("id", Val.vInt 1), ("stats", Val.vDict []),
             ("expansions", Val.vList [Val.vDict [("id", Val.vInt 3)]]),
             ("expands", Val.vList [])]⟩⟩⟩
      (.vDict [("id", Val.vInt 3)])
      = .ok ⟨[⟨3, [("id", Val.vInt 3)]⟩], [Val.vInt 3], [], [], [], [], [], [], [], [],
         ⟨none, none, ⟨none, [], []⟩, [], [], none,
          ⟨1, [("id", Val.vInt 1), ("stats", Val.vDict []),
               ("expansions", Val.vList [Val.vDict [("id", Val.vInt 3)]]),
               ("expands", Val.vList [])]⟩⟩⟩ := by
  have hok : boardGame gameDataWithLists =
      .ok ⟨[], [], [], [], [], [], [], [], [], [],
           ⟨none, none, ⟨none, [], []⟩, [], [], none, ⟨1, gameDataWithLists⟩⟩⟩ := rfl
  obtain ⟨g2, heq, hexp, hlen, hmem, hdata, hset⟩ :=
    (c5_add_expansion
      ⟨[], [], [], [], [], [], [], [], [], [],
       ⟨none, none, ⟨none, [], []⟩, [], [], none, ⟨1, gameDataWithLists⟩⟩⟩
      [("id", Val.vInt 3)] (Val.vInt 3)).2 [] ⟨3, [("id", Val.vInt 3)]⟩
      rfl rfl rfl rfl rfl
  have hg2 : g2 = ⟨[⟨3, [("id", Val.vInt 3)]⟩], [Val.vInt 3],
      [], [], [], [], [], [], [], [],
      ⟨none, none, ⟨none, [], []⟩, [], [], none,
       ⟨1, [("id", Val.vInt 1), ("stats", Val.vDict []),
            ("expansions", Val.vList [Val.vDict [("id", Val.vInt 3)]]),
            ("expands", Val.vList [])]⟩⟩⟩ := by
    have h2 : addExpansion
        ⟨[], [], [], [], [], [], [], [], [], [],
         ⟨none, none, ⟨none, [], []⟩, [], [], none, ⟨1, gameDataWithLists⟩⟩⟩
        (.vDict [("id", Val.vInt 3)])
        = .ok ⟨[⟨3, [("id", Val.vInt 3)]⟩], [Val.vInt 3],
            [], [], [], [], [], [], [], [],
            ⟨none, none, ⟨none, [], []⟩, [], [], none,
             ⟨1, [("id", Val.vInt 1), ("stats", Val.vDict []),
                  ("expansions", Val.vList [Val.vDict [("id", Val.vInt 3)]]),
                  ("expands", Val.vList [])]⟩⟩⟩ := rfl
    rw [heq] at h2
    injection h2
  subst hg2
  refine ⟨?_, ?_⟩
  · rw [hok]
    simp only [Except.map]
    exact congrArg Except.ok heq
  · exact (c5_add_expansion
      ⟨[⟨3, [("id", Val.vInt 3)]⟩], [Val.vInt 3], [], [], [], [], [], [], [], [],
       ⟨none, none, ⟨none, [], []⟩, [], [], none,
        ⟨1, [("id", Val.vInt 1), ("stats", Val.vDict []),
             ("expansions", Val.vList [Val.vDict [("id", Val.vInt 3)]]),
             ("expands", Val.vList [])]⟩⟩⟩
      [("id", Val.vInt 3)] (Val.vInt 3)).1 ⟨rfl, rfl, rfl⟩

/-- Claim C6, counterexample: on a game built from a mapping with no
`expands` key, `add_expanded_game` with a mapping that does contain an
id still raises the tagged error (the raw-mapping append fails with
`KeyError`), so the operation does not complete without error whenever
an id is present. -/
theorem c6_expands_counterexample :
    (boardGame gameDataMinimal).map
        (fun g => addExpandedGame g (.vDict [("id", Val.vInt 5)]))
      = .ok (.error (.bggError "invalid expanded game data")) ∧
    dictGet [("id", Val.vInt 5)] "id" = some (Val.vInt 5) :=
  ⟨rfl, rfl⟩

/-- Claim C6, amended: both mutators raise their tagged validation error
whenever the argument lacks an id, whatever the game's state; when the
argument carries an integer id and the backing mapping holds the
corresponding raw list, the operation completes without error — either
appending to both the raw backing list and the wrapped list (new id,
kept in sync) or returning the game unchanged (known id). -/
theorem c6_add_ops_errors (g : BoardGameS) (d : Dict) :
    (dictGet d "id" = none →
      addExpansion g (.vDict d) = .error (.bggError "invalid expansion data")) ∧
    (dictGet d "id" = none →
      addExpandedGame g (.vDict d) = .error (.bggError "invalid expanded game data")) ∧
    (∀ (n : Int) (l : List Val), dictGet d "id" = some (.vInt n) →
      dictGet g.base.core.data "expansions" = some (.vList l) →
      ∃ g2, addExpansion g (.vDict d) = .ok g2 ∧
        ((valMem (.vInt n) g.expansionsSet = false →
           g2.expansions = g.expansions ++ [⟨n, d⟩] ∧
           dictGet g2.base.core.data "expansions" = some (.vList (l ++ [.vDict d]))) ∧
         (valMem (.vInt n) g.expansionsSet = true → g2 = g))) ∧
    (∀ (n : Int) (l : List Val), dictGet d "id" = some (.vInt n) →
      dictGet g.base.core.data "expands" = some (.vList l) →
      ∃ g2, addExpandedGame g (.vDict d) = .ok g2 ∧
        ((valMem (.vInt n) g.expandsSet = false →
           g2.expands = g.expands ++ [⟨n, d⟩] ∧
           dictGet g2.base.core.data "expands" = some (.vList (l ++ [.vDict d]))) ∧
         (valMem (.vInt n) g.expandsSet = true → g2 = g))) := by
  have hthing : ∀ (n : Int), dictGet d "id" = some (.vInt n) → thing d = .ok ⟨n, d⟩ := by
    intro n hid
    simp [thing, hid, pyInt]
  refine ⟨?_, ?_, ?_, ?_⟩
  · intro hid
    simp [addExpansion, addRefBody, hid]
  · intro hid
    simp [addExpandedGame, addRefBody, hid]
  · intro n l hid hback
    by_cases hm : valMem (.vInt n) g.expansionsSet = true
    · refine ⟨g, ?_, ?_, fun _ => rfl⟩
      · simp only [addExpansion, addRefBody, hid, hm, if_true]
        rfl
      · intro hm2
        rw [hm] at hm2
        exact Bool.noConfusion hm2
    · have hm2 : valMem (.vInt n) g.expansionsSet = false := by
        cases hmm : valMem (.vInt n) g.expansionsSet with
        | true => exact absurd hmm hm
        | false => rfl
      refine ⟨⟨g.expansions ++ [⟨n, d⟩], g.expansionsSet ++ [.vInt n], g.expands,
        g.expandsSet, g.videos, g.videosIds, g.comments, g.pollNumplayers,
        g.pollPlayerage, g.pollLangdeps,
        ⟨g.base.thumbnail, g.base.image, g.base.stats, g.base.versions,
         g.base.versionsSet, g.base.yearPublished,
         ⟨g.base.core.id, dictSet g.base.core.data "expansions"
            (.vList (l ++ [.vDict d]))⟩⟩⟩, ?_,
        fun _ => ⟨rfl, dictGet_dictSet_self _ _ _⟩, fun hc => absurd hc hm⟩
      simp only [addExpansion, addRefBody, hid, hm2, hback, hthing n hid,
        Bool.false_eq_true, if_false, if_true, hashableVal]
  · intro n l hid hback
    by_cases hm : valMem (.vInt n) g.expandsSet = true
    · refine ⟨g, ?_, ?_, fun _ => rfl⟩
      · simp only [addExpandedGame, addRefBody, hid, hm, if_true]
        rfl
      · intro hm2
        rw [hm] at hm2
        exact Bool.noConfusion hm2
    · have hm2 : valMem (.vInt n) g.expandsSet = false := by
        cases hmm : valMem (.vInt n) g.expandsSet with
        | true => exact absurd hmm hm
        | false => rfl
      refine ⟨⟨g.expansions, g.expansionsSet, g.expands ++ [⟨n, d⟩],
        g.expandsSet ++ [.vInt n], g.videos, g.videosIds, g.comments,
        g.pollNumplayers, g.pollPlayerage, g.pollLangdeps,
        ⟨g.base.thumbnail, g.base.image, g.base.stats, g.base.versions,
         g.base.versionsSet, g.base.yearPublished,
         ⟨g.base.core.id, dictSet g.base.core.data "expands"
            (.vList (l ++ [.vDict d]))⟩⟩⟩, ?_,
        fun _ => ⟨rfl, dictGet_dictSet_self _ _ _⟩, fun hc => absurd hc hm⟩
      simp only [addExpandedGame, addRefBody, hid, hm2, hback, hthing n hid,
        Bool.false_eq_true, if_false, if_true, hashableVal]

/-- Claim C6, witness: on the game whose backing mapping holds empty
`expansions` and `expands` lists, adding an expansion with no id raises
the tagged error, while `add_expanded_game` with id 5 completes without
error. -/
theorem c6_add_ops_witness :
    addExpansion
      ⟨[], [], [], [], [], [], [], [], [], [],
       ⟨none, none, ⟨none, [], []⟩, [], [], none, ⟨1, gameDataWithLists⟩⟩⟩
      (.vDict [("name", Val.vStr "x")]) = .error (.bggError "invalid expansion data") ∧
    addExpandedGame
      ⟨[], [], [], [], [], [], [], [], [], [],
       ⟨none, none, ⟨none, [], []⟩, [], [], none, ⟨1, gameDataWithLists⟩⟩⟩
      (.vDict [("id", Val.vInt 5)])
      = .ok ⟨[], [], [⟨5, [("id", Val.vInt 5)]⟩], [Val.vInt 5],
          [], [], [], [], [], [],
          ⟨none, none, ⟨none, [], []⟩, [], [], none,
           ⟨1, [("id", Val.vInt 1), ("stats", Val.vDict []),
                ("expansions", Val.vList []),
                ("expands", Val.vList [Val.vDict [("id", Val.vInt 5)]])]⟩⟩⟩ := by
  constructor
  · exact (c6_add_ops_errors
      ⟨[], [], [], [], [], [], [], [], [], [],
       ⟨none, none, ⟨none, [], []⟩, [], [], none, ⟨1, gameDataWithLists⟩⟩⟩
      [("name", Val.vStr "x")]).1 rfl
  · obtain ⟨g2, hg2, _⟩ := (c6_add_ops_errors
      ⟨[], [], [], [], [], [], [], [], [], [],
       ⟨none, none, ⟨none, [], []⟩, [], [], none, ⟨1, gameDataWithLists⟩⟩⟩
      [("id", Val.vInt 5)]).2.2.2 5 [] rfl rfl
    have h2 : addExpandedGame
        ⟨[], [], [], [], [], [], [], [], [], [],
         ⟨none, none, ⟨none, [], []⟩, [], [], none, ⟨1, gameDataWithLists⟩⟩⟩
        (.vDict [("id", Val.vInt 5)])
        = .ok ⟨[], [], [⟨5, [("id", Val.vInt 5)]⟩], [Val.vInt 5],
            [], [], [], [], [], [],
            ⟨none, none, ⟨none, [], []⟩, [], [], none,
             ⟨1, [("id", Val.vInt 1), ("stats", Val.vDict []),
                  ("expansions", Val.vList []),
                  ("expands", Val.vList [Val.vDict [("id", Val.vInt 5)]])]⟩⟩⟩ := rfl
    rw [hg2] at h2
    injection h2 with h3
    rw [← h3]
    exact hg2

/-- Claim C7: a video constructed with a string-valued `post_date`
stores the result of stripping the trailing six characters and parsing
the remainder with the `YYYY-MM-DDTHH:MM:SS` pattern; the example
timestamp with a timezone suffix parses to 2021-05-01 10:00:00, and any
string on which the parse fails still constructs (given valid
`uploader_id` and `id`) with `post_date` resolved to null. -/
theorem c7_post_date_parsing (data : Dict) (s : String) (uv iv : Val) (n m : Int)
    (hpd : dictGet data "post_date" = some (.vStr s))
    (hu : dictGet data "uploader_id" = some uv) (hn : pyInt uv = .ok n)
    (hi : dictGet data "id" = some iv) (hm : pyInt iv = .ok m) :
    boardGameVideo data =
      .ok ⟨m, dictSet (dictSet data "post_date" (postDateOfString s))
              "uploader_id" (.vInt n)⟩ ∧
    postDateOfString "2021-05-01T10:00:00-07:00" = .vDate ⟨2021, 5, 1, 10, 0, 0⟩ ∧
    (∀ t, parseYmdHms (dropLast6 t) = none → postDateOfString t = .vNull) := by
  refine ⟨?_, rfl, ?_⟩
  · have h1 : dictGet (dictSet data "post_date" (postDateOfString s)) "uploader_id"
        = some uv := by
      rw [dictGet_dictSet_ne _ _ _ _ (by decide), hu]
    have h2 : dictGet (dictSet (dictSet data "post_date" (postDateOfString s))
        "uploader_id" (.vInt n)) "id" = some iv := by
      rw [dictGet_dictSet_ne _ _ _ _ (by decide),
          dictGet_dictSet_ne _ _ _ _ (by decide), hi]
    simp only [boardGameVideo, hpd, h1, hn, thing, h2, hm]
  · intro t ht
    unfold postDateOfString
    rw [ht]

/-- Claim C7, witness: the example video input constructs with the
parsed timestamp, and a malformed `post_date` string resolves to null. -/
theorem c7_post_date_witness :
    boardGameVideo [("id", Val.vInt 9), ("uploader_id", Val.vStr "33"),
      ("post_date", Val.vStr "2021-05-01T10:00:00-07:00")]
    = .ok ⟨9, [("id", Val.vInt 9), ("uploader_id", Val.vInt 33),
      ("post_date", Val.vDate ⟨2021, 5, 1, 10, 0, 0⟩)]⟩ ∧
    postDateOfString "garbage" = .vNull := by
  have hc := c7_post_date_parsing
    [("id", Val.vInt 9), ("uploader_id", Val.vStr "33"),
     ("post_date", Val.vStr "2021-05-01T10:00:00-07:00")]
    "2021-05-01T10:00:00-07:00" (Val.vStr "33") (Val.vInt 9) 33 9
    rfl rfl rfl rfl rfl
  exact ⟨hc.1.trans rfl, hc.2.2 "garbage" rfl⟩

/-- A video input without `uploader_id` fails with `KeyError` at the
`int(kw["uploader_id"])` coercion, whatever `post_date` holds. -/
theorem videoMissingUploader (data : Dict) (h : dictGet data "uploader_id" = none) :
    boardGameVideo data = .error (.keyError "uploader_id") := by
  unfold boardGameVideo
  cases hp : dictGet data "post_date" with
  | none => simp [h]
  | some pv =>
    cases pv <;>
      simp [h, dictGet_dictSet_ne _ "post_date" "uploader_id" _ (by decide)]

/-- A video input whose `uploader_id` does not coerce to an integer
fails with the coercion's own error (`ValueError` for a non-numeric
string), not with the domain validation error. -/
theorem videoBadUploader (data : Dict) (v : Val) (e : PyErr)
    (hu : dictGet data "uploader_id" = some v) (hpi : pyInt v = .error e) :
    boardGameVideo data = .error e := by
  unfold boardGameVideo
  cases hp : dictGet data "post_date" with
  | none => simp [hu, hpi]
  | some pv =>
    cases pv <;>
      simp [hu, hpi, dictGet_dictSet_ne _ "post_date" "uploader_id" _ (by decide)]

/-- A successfully constructed video exposes its `uploader_id` as the
coerced integer. -/
theorem videoUploaderExposed (data : Dict) (v : Val) (n : Int) (t : Thing)
    (hu : dictGet data "uploader_id" = some v) (hpi : pyInt v = .ok n)
    (hok : boardGameVideo data = .ok t) :
    dictGet t.data "uploader_id" = some (.vInt n) := by
  unfold boardGameVideo at hok
  have base : ∀ kw, dictGet kw "uploader_id" = some v →
      (match dictGet kw "uploader_id" with
       | none => Except.error (PyErr.keyError "uploader_id")
       | some uv =>
         match pyInt uv with
         | .error e => Except.error e
         | .ok n2 => thing (dictSet kw "uploader_id" (.vInt n2))) = .ok t →
      dictGet t.data "uploader_id" = some (.vInt n) := by
    intro kw hkw hh
    rw [hkw] at hh
    simp only [hpi] at hh
    rw [thing_data _ _ hh]
    exact dictGet_dictSet_self _ _ _
  cases hp : dictGet data "post_date" with
  | none =>
    rw [hp] at hok
    exact base data hu hok
  | some pv =>
    rw [hp] at hok
    cases pv with
    | vDate dt => exact base data hu hok
    | vStr s =>
      exact base _ (by rw [dictGet_dictSet_ne _ _ _ _ (by decide), hu]) hok
    | vInt n2 =>
      exact base _ (by rw [dictGet_dictSet_ne _ _ _ _ (by decide), hu]) hok
    | vNull =>
      exact base _ (by rw [dictGet_dictSet_ne _ _ _ _ (by decide), hu]) hok
    | vList l =>
      exact base _ (by rw [dictGet_dictSet_ne _ _ _ _ (by decide), hu]) hok
    | vDict dd =>
      exact base _ (by rw [dictGet_dictSet_ne _ _ _ _ (by decide), hu]) hok

/-- Claim C9, counterexample: a video whose `uploader_id` is the
non-coercible string `xyz` fails with `ValueError`, not with the domain
validation error, both at direct video construction and inside full-game
construction. -/
theorem c9_value_error_counterexample :
    boardGameVideo [("id", Val.vInt 1), ("uploader_id", Val.vStr "xyz")]
      = .error .valueError ∧
    errIsBgg (boardGameVideo [("id", Val.vInt 1), ("uploader_id", Val.vStr "xyz")])
      = false ∧
    boardGame [("videos", Val.vList
        [Val.vDict [("id", Val.vInt 1), ("uploader_id", Val.vStr "xyz")]])]
      = .error .valueError :=
  ⟨rfl, rfl, rfl⟩

/-- Claim C9, amended: a missing `uploader_id` raises `KeyError` at the
video constructor (which the enclosing game loop converts to the tagged
validation error `invalid video data`); a present but non-coercible
`uploader_id` raises the coercion's own error, uncaught; a coercible one
is exposed as an integer on the constructed video. -/
theorem c9_uploader_id_amended :
    (∀ data : Dict, dictGet data "uploader_id" = none →
      boardGameVideo data = .error (.keyError "uploader_id")) ∧
    (∀ (data : Dict) (v : Val) (e : PyErr), dictGet data "uploader_id" = some v →
      pyInt v = .error e → boardGameVideo data = .error e) ∧
    (∀ (data : Dict) (v : Val) (n : Int) (t : Thing),
      dictGet data "uploader_id" = some v → pyInt v = .ok n →
      boardGameVideo data = .ok t → dictGet t.data "uploader_id" = some (.vInt n)) ∧
    (∀ (d : Dict) (idv : Val), dictGet d "id" = some idv → hashableVal idv = true →
      dictGet d "uploader_id" = none →
      boardGame [("videos", Val.vList [Val.vDict d])]
        = .error (.bggError "invalid video data")) := by
  refine ⟨videoMissingUploader, videoBadUploader, videoUploaderExposed, ?_⟩
  intro d idv hid hh hu
  have hv := videoMissingUploader d hu
  have hloop : dedupLoop "invalid video data" boardGameVideo ⟨[], []⟩ [Val.vDict d]
      = .error (.bggError "invalid video data") := by
    simp [dedupLoop, dedupStep, dedupBody, hid, hh, hv, valMem]
  simp [boardGame, getField, dictGet, getIter, hloop]
  rfl

/-- Claim C9, witness: a video with `uploader_id` given as the numeric
string `"33"` constructs and exposes the integer 33; a single-element
videos list whose entry has an id but no `uploader_id` makes full-game
construction fail with the tagged error `invalid video data`. -/
theorem c9_uploader_id_witness :
    dictGet (Thing.data ⟨9, [("id", Val.vInt 9), ("uploader_id", Val.vInt 33)]⟩)
        "uploader_id" = some (Val.vInt 33) ∧
    boardGame [("videos", Val.vList [Val.vDict [("id", Val.vInt 2)]])]
      = .error (.bggError "invalid video data") := by
  constructor
  · exact c9_uploader_id_amended.2.2.1
      [("id", Val.vInt 9), ("uploader_id", Val.vStr "33")] (Val.vStr "33") 33
      ⟨9, [("id", Val.vInt 9), ("uploader_id", Val.vInt 33)]⟩ rfl rfl rfl
  · exact c9_uploader_id_amended.2.2.2 [("id", Val.vInt 2)] (Val.vInt 2) rfl rfl rfl

/-- A deduplicating loop that reaches an element lacking an `id` fails
with the loop's tagged validation error. -/
theorem dedupLoop_missing_id (tag : String) (mk : Dict → Except PyErr Thing)
    (l1 l2 : List Val) (d : Dict) (st1 : DedupSt)
    (hid : dictGet d "id" = none)
    (h1 : dedupLoop tag mk ⟨[], []⟩ l1 = .ok st1) :
    dedupLoop tag mk ⟨[], []⟩ (l1 ++ Val.vDict d :: l2) = .error (.bggError tag) := by
  rw [dedupLoop_append tag mk l1 (Val.vDict d :: l2) ⟨[], []⟩, h1]
  simp [dedupLoop, dedupStep, dedupBody, hid]

/-- Claim C8: during game construction, an element of `expansions`,
`expands` or `videos` lacking an `id` aborts construction with the
matching tagged validation error (`invalid expansion data`,
`invalid expanded game data`, `invalid video data`), provided the
entries processed before it did not abort first. -/
theorem c8_missing_id_tagged :
    (∀ (data : Dict) (l1 l2 : List Val) (d : Dict) (st1 : DedupSt),
      getField data "expansions" = .ok (l1 ++ Val.vDict d :: l2) →
      dictGet d "id" = none →
      dedupLoop "invalid expansion data" thing ⟨[], []⟩ l1 = .ok st1 →
      boardGame data = .error (.bggError "invalid expansion data")) ∧
    (∀ (data : Dict) (exps l1 l2 : List Val) (d : Dict) (est st1 : DedupSt),
      getField data "expansions" = .ok exps →
      dedupLoop "invalid expansion data" thing ⟨[], []⟩ exps = .ok est →
      getField data "expands" = .ok (l1 ++ Val.vDict d :: l2) →
      dictGet d "id" = none →
      dedupLoop "invalid expanded game data" thing ⟨[], []⟩ l1 = .ok st1 →
      boardGame data = .error (.bggError "invalid expanded game data")) ∧
    (∀ (data : Dict) (exps xps l1 l2 : List Val) (d : Dict) (est xst st1 : DedupSt),
      getField data "expansions" = .ok exps →
      dedupLoop "invalid expansion data" thing ⟨[], []⟩ exps = .ok est →
      getField data "expands" = .ok xps →
      dedupLoop "invalid expanded game data" thing ⟨[], []⟩ xps = .ok xst →
      getField data "videos" = .ok (l1 ++ Val.vDict d :: l2) →
      dictGet d "id" = none →
      dedupLoop "invalid video data" boardGameVideo ⟨[], []⟩ l1 = .ok st1 →
      boardGame data = .error (.bggError "invalid video data")) := by
  refine ⟨?_, ?_, ?_⟩
  · intro data l1 l2 d st1 hE hid h1
    have hfail := dedupLoop_missing_id "invalid expansion data" thing l1 l2 d st1 hid h1
    simp only [boardGame, hE, hfail]
  · intro data exps l1 l2 d est st1 hE hEL hX hid h1
    have hfail := dedupLoop_missing_id "invalid expanded game data" thing l1 l2 d st1 hid h1
    simp only [boardGame, hE, hEL, hX, hfail]
  · intro data exps xps l1 l2 d est xst st1 hE hEL hX hXL hV hid h1
    have hfail := dedupLoop_missing_id "invalid video data" boardGameVideo l1 l2 d st1 hid h1
    simp only [boardGame, hE, hEL, hX, hXL, hV, hfail]

/-- Claim C8, witness: an id-less element in each of the three lists
aborts construction with the corresponding tagged error. -/
theorem c8_missing_id_witness :
    boardGame [("expansions", Val.vList [Val.vDict [("name", Val.vStr "x")]])]
      = .error (.bggError "invalid expansion data") ∧
    boardGame [("expands", Val.vList [Val.vDict []])]
      = .error (.bggError "invalid expanded game data") ∧
    boardGame [("videos", Val.vList [Val.vDict []])]
      = .error (.bggError "invalid video data") :=
  ⟨c8_missing_id_tagged.1 [("expansions", Val.vList [Val.vDict [("name", Val.vStr "x")]])]
     [] [] [("name", Val.vStr "x")] ⟨[], []⟩ rfl rfl rfl,
   c8_missing_id_tagged.2.1 [("expands", Val.vList [Val.vDict []])]
     [] [] [] [] ⟨[], []⟩ ⟨[], []⟩ rfl rfl rfl rfl rfl,
   c8_missing_id_tagged.2.2 [("videos", Val.vList [Val.vDict []])]
     [] [] [] [] [] ⟨[], []⟩ ⟨[], []⟩ ⟨[], []⟩ rfl rfl rfl rfl rfl rfl rfl⟩
